import Mathlib

/-!
A shallow embedding of `src/api/catalog.ts` of vue-storefront-api: the catalog
request handler (request validation and normalization, fingerprinting, output
caching with invalidation tags, processor dispatch, attribute-metadata
enrichment and output formatting), together with theorems checking the claims
of the natural-language specification against it.

External collaborators of the handler (the elasticsearch HTTP client, the
cache store, jwt decoding, the storefront-query-builder translation, the
processor adapters, and the attribute service) are modelled as an `Env` record
of their outcomes for the request at hand.  The handler itself is translated
from the TypeScript source; it returns the ordered trace of observable actions
it performs (as a `List Event`), or the error it throws.
-/

/-! ## JS string primitives, modelled over character lists -/

/-- JS `split` on the slash character: splits at every separator and keeps
empty segments (splitting the empty string yields a single empty segment,
exactly as in JS).  The first argument is the remaining input, the second the
current segment reversed. -/
def splitSlashAux : List Char → List Char → List String
  | [], acc => [String.mk acc.reverse]
  | c :: cs, acc =>
    if c = '/' then String.mk acc.reverse :: splitSlashAux cs []
    else splitSlashAux cs (c :: acc)

/-- `req.url.split('/')` from line 91 of the source. -/
def jsSplitSlash (s : String) : List String := splitSlashAux s.toList []

/-- Boolean list-prefix test over characters. -/
def listIsPfx : List Char → List Char → Bool
  | [], _ => true
  | _ :: _, [] => false
  | a :: as, b :: bs => a == b && listIsPfx as bs

/-- JS `s.indexOf(p) === 0`, i.e. the string starts with the pattern. -/
def strStartsWith (s p : String) : Bool := listIsPfx p.toList s.toList

/-- The string ends with the pattern. -/
def strEndsWith (s p : String) : Bool := listIsPfx p.toList.reverse s.toList.reverse

/-- Drop the first `n` characters. -/
def strDrop (s : String) (n : Nat) : String := String.mk (s.toList.drop n)

/-- Drop the last `n` characters. -/
def strDropRight (s : String) (n : Nat) : String :=
  String.mk (s.toList.take (s.toList.length - n))

/-! ## Request bodies and fingerprinting -/

/-- The request body (`requestBody` in the source).  The handler only ever
inspects the personalization fields `groupToken` and `groupId`; every other
property of the JSON object is carried opaquely, in canonical serialized form,
as `rest`. -/
structure Body where
  groupToken : Option String
  groupId : Option String
  rest : String
  deriving DecidableEq, Repr

/-- The empty JSON object body (what a GET request without a `request` query
parameter carries, `req.body` for a GET). -/
def emptyBody : Body := { groupToken := none, groupId := none, rest := "" }

/-- Modelled from the spec: `JSON.stringify` of the request body (host-language
serialization, external to the orchestration core).  The body is modelled as
its two personalization fields plus an opaque canonical remainder, and the
serialization is an injective encoding of those three components. -/
def serializeBody (b : Body) : String :=
  (match b.groupToken with | some t => "groupToken:" ++ t | none => "") ++ ";" ++
  (match b.groupId with | some g => "groupId:" ++ g | none => "") ++ ";" ++ b.rest

/-- Modelled from the spec: the `js-sha3` digest used by the Fingerprint
Generator (an external library, not part of this repository).  The spec
requires a deterministic fixed-length digest with same-input-same-output; the
claims checked here depend only on determinism and on equality of inputs, so
the digest is modelled as an injective placeholder on strings. -/
def sha3_224 (s : String) : String := s

/-- Modelled from the spec: `adjustBackendProxyUrl` lives in `src/lib/elastic`
(not included under `src/`); the spec treats index/entity-aware backend URL
resolution as an external collaborator.  Only the fact that it is a function
of the request URL, the index name and the entity type matters here. -/
def adjustBackendProxyUrl (url indexName entityType : String) : String :=
  url ++ "@" ++ indexName ++ "@" ++ entityType

/-! ## Backend response shapes -/

/-- The `_source` object of a hit.  The handler only reads its `id`
(line 150); the remaining fields are carried opaquely as `rest`. -/
structure Source where
  id : Option String
  rest : String
  deriving DecidableEq, Repr

/-- One entry of `hits.hits` in the raw backend response. -/
structure Hit where
  source : Source
  score : Option Int
  deriving DecidableEq, Repr

/-- A flattened hit as produced by the compact output format:
`Object.assign(hit._source, { _score: hit._score })`, i.e. the source object
augmented with the relevance score. -/
structure FlatItem where
  id : Option String
  rest : String
  score : Option Int
  deriving DecidableEq, Repr

/-- The `hits` wrapper object of the raw backend response. -/
structure HitsObj where
  total : Nat
  max_score : Option Int
  hits : Option (List Hit)
  deriving DecidableEq, Repr

/-- The value of the `hits` property of a response body.  The backend delivers
the wrapper object; the compact formatter reassigns the property to the
flattened hit list. -/
inductive HitsField where
  | obj (o : HitsObj)
  | flat (items : List FlatItem)
  deriving DecidableEq, Repr

/-- A response body (`_resBody` / `responseBody` in the source), with optional
fields for the properties the handler deletes or assigns. -/
structure ResBody where
  took : Option Nat
  timed_out : Option Bool
  shards : Option String
  hits : Option HitsField
  total : Option Nat
  aggregations : Option (List (String × List String))
  attribute_metadata : Option (List String)
  deriving DecidableEq, Repr

/-- `Object.assign(hit._source, { _score: hit._score })` (line 62). -/
def flattenHit (h : Hit) : FlatItem :=
  { id := h.source.id, rest := h.source.rest, score := h.score }

/-- `_outputFormatter` (lines 53-67).  For the `compact` format it deletes
`took`, `timed_out` and `_shards`; if `hits` is present it deletes
`hits.max_score`, sets `total` from `hits.total` and replaces `hits` by the
flattened hit list.  Any other format returns the body unchanged.  `none`
models the TypeError thrown when `hits` is present but `hits.hits` is not a
list (then `.map` is called on `undefined`). -/
def _outputFormatter (responseBody : ResBody) (format : String) : Option ResBody :=
  if format = "compact" then
    let b := { responseBody with took := none, timed_out := none, shards := none }
    match b.hits with
    | some (HitsField.obj o) =>
      match o.hits with
      | some hs =>
        some { b with total := some o.total,
                      hits := some (HitsField.flat (hs.map flattenHit)) }
      | none => none
    | some (HitsField.flat _) => none
    | none => some b
  else some responseBody

/-- Whether any `max_score` field is present in the body (it only ever lives
inside the `hits` wrapper object). -/
def bodyHasMaxScore (b : ResBody) : Bool :=
  match b.hits with
  | some (HitsField.obj o) => o.max_score.isSome
  | _ => false

/-! ## Tag computation (lines 145-154) -/

/-- `entityType[0].toUpperCase()` (line 147): the first character of the
entity type, uppercased.  For the empty string, `entityType[0]` is
`undefined` and calling `toUpperCase` on it throws, modelled by `none`. -/
def tagPfx (entityType : String) : Option String :=
  match entityType.toList with
  | [] => none
  | c :: _ => some (String.mk [c.toUpper])

/-- The construction of `tagsArray` (lines 145-154): when output caching is
on, the bare entity type followed by one `P<id>`-style tag for every raw hit
whose `_source.id` is truthy; when caching is off the array stays empty.
`none` models the TypeError thrown on an empty entity type. -/
def computeTags (cacheOn : Bool) (entityType : String) (items : List Hit) :
    Option (List String) :=
  if cacheOn then
    match tagPfx entityType with
    | none => none
    | some p =>
      some (entityType :: items.filterMap fun item =>
        match item.source.id with
        | some idv => if idv = "" then none else some (p ++ idv)
        | none => none)
  else some []

/-! ## Attribute enrichment: building the attribute list parameter
(`getProductsAttributesMetadata`, lines 29-51) -/

/-- The key rewrite of line 33, modelling the regex that strips one
`agg_terms_` or `agg_range_` occurrence anchored at the start and one
`_options` occurrence anchored at the end.  With the global flag the regex
scans left to right, so the anchored start match can fire at most once and the
anchored end match fires only when its occurrence does not overlap a removed
start match; stripping the start first and then testing the remainder for the
`_options` suffix realizes exactly that behaviour (both candidate removals are
10 respectively 8 characters long, and a suffix of the remainder never
overlaps the removed head). -/
def stripAggKey (key : String) : String :=
  let k :=
    if strStartsWith key "agg_terms_" then strDrop key 10
    else if strStartsWith key "agg_range_" then strDrop key 10
    else key
  if strEndsWith k "_options" then strDropRight k 8 else k

/-- One step of the JS `Set`-based dedup: append the element unless already
present. -/
def dedupStep (acc : List String) (x : String) : List String :=
  if x ∈ acc then acc else acc ++ [x]

/-- `[...new Set(l)]` (line 42): the list with duplicates removed, keeping
first occurrences. -/
def jsDedup (l : List String) : List String := l.foldl dedupStep []

/-- Lookup in the accumulator object, modelled as an association list that
preserves JS object insertion order. -/
def assocLookup : List (String × List String) → String → Option (List String)
  | [], _ => none
  | (k, v) :: rest, code => if k = code then some v else assocLookup rest code

/-- Update the accumulator object at a key in place, or append a fresh entry;
absent keys start from the empty bucket list (lines 36-38). -/
def updateAssoc (acc : List (String × List String)) (code : String)
    (f : List String → List String) : List (String × List String) :=
  match acc with
  | [] => [(code, f [])]
  | (k, v) :: rest =>
    if k = code then (k, f v) :: rest else (k, v) :: updateAssoc rest code f

/-- One step of the reduce of lines 32-45: strip the aggregation key to the
attribute code and merge the bucket ids into the accumulated (deduplicated)
bucket list for that code. -/
def aggStep (acc : List (String × List String)) (kv : String × List String) :
    List (String × List String) :=
  updateAssoc acc (stripAggKey kv.1) fun old => jsDedup (old ++ kv.2)

/-- `attributeListParam` (lines 30-45): keep only aggregations with non-empty
bucket lists, then fold them into a mapping from attribute code to the
deduplicated union of bucket keys.  Aggregations are modelled as the ordered
association of aggregation name to the list of bucket keys (the only bucket
field the source reads is `bucket.key`, line 34). -/
def attributeListParam (aggs : List (String × List String)) :
    List (String × List String) :=
  (aggs.filter fun kv => !kv.2.isEmpty).foldl aggStep []

/-! ## The environment of external collaborators -/

/-- Outcome of `cache.get` for this request: a cached value, a `null` miss, or
a rejected promise. -/
inductive CacheGetResult where
  | hit (v : ResBody)
  | miss
  | failure (e : String)
  deriving Repr

/-- Outcomes of all external collaborators for the request at hand.
`cacheAvailable` is the truthiness of the imported `cache` instance;
`translate` is `storefront-query-builder` building a query body from a
search-query body; `jwtDecodeGroupId` is the `group_id` field of
`jwt.decode(userToken, secret)` (or the decoding error); `backendResponse` is
the parsed body the `request` library hands to its callback;
`processorHasAdapter` tells whether `ProcessorFactory.getAdapter` finds an
entity-specific adapter; `processorResult` is the settled promise of
`resultProcessor.process`; `attributeList` is the settled promise of
`AttributeService.list`; `transformToMetadata` is
`AttributeService.transformToMetadata`. -/
structure Env where
  cacheAvailable : Bool
  translate : Body → Body
  jwtDecodeGroupId : Except String (Option String)
  cacheGetResult : CacheGetResult
  backendResponse : Option ResBody
  processorHasAdapter : Bool
  processorResult : Except String (List Hit)
  attributeList : Except String (List String)
  transformToMetadata : String → String

/-- The configuration slice the handler reads: the index allow-list
(`config.elasticsearch.indices`), the output-cache flag
(`config.server.useOutputCache`) and the backend credentials (empty string
models an unset, falsy credential). -/
structure Config where
  indices : List String
  useOutputCache : Bool
  esUser : String
  esPassword : String
  deriving Repr

/-- The inbound request: method, URL (path plus query string, as Express hands
it to the handler), the pre-parsed `request` query parameter (absent or not
successfully truthy modelled as `none`), the `request_format` and
`response_format` query parameters, and the transport-level parsed body. -/
structure Req where
  method : String
  url : String
  query_request : Option Body
  request_format : Option String
  response_format : Option String
  body : Body
  deriving Repr

/-! ## Observable actions -/

/-- The observable actions of one request, in the order the handler performs
them.  `respond`, `respondRaw` and `respondCached` are the three `res.json`
call sites (formatted pipeline output, raw backend payload passthrough, and
cache hit); `crash` is an exception thrown inside the backend callback. -/
inductive Event where
  | cacheGet (key : String)
  | setHeader (name value : String)
  | respondCached (body : ResBody)
  | logError (msg : String)
  | backendCall (uri : String) (method : String) (body : Body) (auth : Option (String × String))
  | processCall (adapter : String) (items : List Hit) (groupId : Option String)
  | cacheSet (key : String) (tags : List String)
  | attrListCall (param : List (String × List String)) (indexName : String)
  | respond (body : ResBody)
  | respondRaw (body : Option ResBody)
  | crash (msg : String)
  deriving DecidableEq, Repr

/-- `_cacheStorageHandler` (lines 11-21): when output caching is on, start the
asynchronous `cache.set` under the `api:`-prefixed fingerprint with the given
tags (fire and forget: its settlement never gates the response; the stored
value is the response object passed by reference and is not part of the
event). -/
def _cacheStorageHandler (cacheOn : Bool) (hash : String) (tags : List String) :
    List Event :=
  if cacheOn then [Event.cacheSet ("api:" ++ hash) tags] else []

/-- `res.json(_outputFormatter(_resBody, responseFormat))` (lines 167, 175). -/
def respondFormatted (b : ResBody) (format : String) : List Event :=
  match _outputFormatter b format with
  | some out => [Event.respond out]
  | none => [Event.crash "TypeError in _outputFormatter"]

/-! ## The handler -/

/-- `dynamicRequestHandler` (lines 135-184): issue the backend request; if the
response carries a hit list, compute the invalidation tags from the raw hits
(lines 145-154), dispatch the processor (entity-specific adapter or the
default), and on success store the processed response in the cache and then,
for the product entity with aggregations present, call the attribute service
before responding with the formatted body.  Processor or attribute-service
rejections reach the promise catch handlers, which only log (lines 168-170,
176-178).  A missing hit list responds with the raw payload (line 181). -/
def dynamicRequestHandler (env : Env) (cacheOn : Bool)
    (indexName entityType : String) (elasticBackendUrl : String)
    (method : String) (requestBody : Body) (auth : Option (String × String))
    (groupId : Option String) (reqHash responseFormat : String) : List Event :=
  Event.backendCall elasticBackendUrl method requestBody auth ::
    match env.backendResponse with
    | some rb =>
      match rb.hits with
      | some (HitsField.obj o) =>
        match o.hits with
        | some rawHits =>
          match computeTags cacheOn entityType rawHits with
          | none =>
            [Event.crash "TypeError: entityType[0] is undefined"]
          | some tagsArray =>
            let adapter := if env.processorHasAdapter then entityType else "default"
            if entityType = "product" then
              match env.processorResult with
              | Except.ok result =>
                Event.processCall adapter rawHits groupId ::
                  (_cacheStorageHandler cacheOn reqHash tagsArray ++
                    match rb.aggregations with
                    | some aggs =>
                      Event.attrListCall (attributeListParam aggs) indexName ::
                        match env.attributeList with
                        | Except.ok lst =>
                          respondFormatted
                            { rb with
                                hits := some (HitsField.obj { o with hits := some result }),
                                attribute_metadata :=
                                  some (lst.map env.transformToMetadata) }
                            responseFormat
                        | Except.error e => [Event.logError e]
                    | none =>
                      respondFormatted
                        { rb with hits := some (HitsField.obj { o with hits := some result }) }
                        responseFormat)
              | Except.error e =>
                [Event.processCall adapter rawHits groupId, Event.logError e]
            else
              match env.processorResult with
              | Except.ok result =>
                Event.processCall adapter rawHits none ::
                  (_cacheStorageHandler cacheOn reqHash tagsArray ++
                    respondFormatted
                      { rb with hits := some (HitsField.obj { o with hits := some result }) }
                      responseFormat)
              | Except.error e =>
                [Event.processCall adapter rawHits none, Event.logError e]
        | none => [Event.respondRaw (some rb)]
      | some (HitsField.flat _) => [Event.respondRaw (some rb)]
      | none => [Event.respondRaw (some rb)]
    | none => [Event.respondRaw none]

/-- JS truthiness of an optional string (the empty string is falsy). -/
def jsTruthyOpt (v : Option String) : Option String :=
  match v with
  | some s => if s = "" then none else some s
  | none => none

/-- Body selection of lines 79-84: a GET request takes the parsed `request`
query parameter when present, otherwise the transport-level body. -/
def requestBodyRaw (req : Req) : Body :=
  if req.method = "GET" then
    match req.query_request with
    | some b => b
    | none => req.body
  else req.body

/-- Lines 86-88: when `request_format` is `search-query`, the body is replaced
by the external query translation. -/
def requestBodyOf (env : Env) (req : Req) : Body :=
  if req.request_format = some "search-query" then env.translate (requestBodyRaw req)
  else requestBodyRaw req

/-- Lines 121-122: both personalization fields are deleted from the body. -/
def strippedBodyOf (env : Env) (req : Req) : Body :=
  { requestBodyOf env req with groupToken := none, groupId := none }

/-- Line 134: the request fingerprint, hashed over the serialized stripped
body concatenated with the request URL. -/
def reqHashOf (env : Env) (req : Req) : String :=
  sha3_224 (serializeBody (strippedBodyOf env req) ++ req.url)

/-- Lines 78 and 89: `standard` unless a truthy `response_format` query
parameter overrides it. -/
def responseFormatOf (req : Req) : String :=
  match req.response_format with
  | some f => if f = "" then "standard" else f
  | none => "standard"

/-- Lines 124-132: basic credentials, only when configured. -/
def authOf (cfg : Config) : Option (String × String) :=
  if cfg.esUser ≠ "" ∨ cfg.esPassword ≠ "" then some (cfg.esUser, cfg.esPassword)
  else none

/-- Lines 111-119: the group id comes from decoding a token longer than ten
characters, else from a truthy `groupId` body field; a decode exception
escapes the handler. -/
def groupIdStep (env : Env) (requestBody : Body) : Except String (Option String) :=
  match requestBody.groupToken with
  | some t =>
    if t.length > 10 then
      match env.jwtDecodeGroupId with
      | Except.ok g => Except.ok (jsTruthyOpt g)
      | Except.error e => Except.error e
    else Except.ok (jsTruthyOpt requestBody.groupId)
  | none => Except.ok (jsTruthyOpt requestBody.groupId)

/-- The default export of `src/api/catalog.ts` (lines 69-203): validate the
method and URL, normalize the body, resolve the group id, strip the
personalization fields, fingerprint, and either serve from the cache or run
`dynamicRequestHandler`.  A thrown validation or decode error is the
`Except.error` case; otherwise the result is the ordered trace of observable
actions. -/
def catalog (cfg : Config) (env : Env) (req : Req) : Except String (List Event) :=
  if ¬(req.method = "GET" ∨ req.method = "POST" ∨ req.method = "OPTIONS") then
    Except.error ("ERROR: " ++ req.method ++ " request method is not supported.")
  else
    let responseFormat := responseFormatOf req
    let requestBody := requestBodyOf env req
    let urlSegments := jsSplitSlash req.url
    if urlSegments.length < 2 then
      Except.error "No index name given in the URL. Please do use following URL format: /api/catalog/<index_name>/<entity_type>_search"
    else
      let indexName := urlSegments.getD 1 ""
      let entityType := if urlSegments.length > 2 then urlSegments.getD 2 "" else ""
      if cfg.indices.contains indexName = false then
        Except.error "Invalid / inaccessible index name given in the URL. Please do use following URL format: /api/catalog/<index_name>/_search"
      else if strStartsWith (urlSegments.getLastD "") "_search" = false then
        Except.error "Please do use following URL format: /api/catalog/<index_name>/_search"
      else
        let elasticBackendUrl := adjustBackendProxyUrl req.url indexName entityType
        match groupIdStep env requestBody with
        | Except.error e => Except.error e
        | Except.ok groupId =>
          let strippedBody := strippedBodyOf env req
          let auth := authOf cfg
          let reqHash := reqHashOf env req
          let cacheOn := cfg.useOutputCache && env.cacheAvailable
          let dyn := dynamicRequestHandler env cacheOn indexName entityType
            elasticBackendUrl req.method strippedBody auth groupId reqHash responseFormat
          if cacheOn then
            match env.cacheGetResult with
            | CacheGetResult.hit v =>
              Except.ok [Event.cacheGet ("api:" ++ reqHash),
                Event.setHeader "X-VS-Cache" "Hit", Event.respondCached v]
            | CacheGetResult.miss =>
              Except.ok (Event.cacheGet ("api:" ++ reqHash) ::
                Event.setHeader "X-VS-Cache" "Miss" :: dyn)
            | CacheGetResult.failure e =>
              Except.ok [Event.cacheGet ("api:" ++ reqHash), Event.logError e]
          else Except.ok dyn

/-! ## Trace observations -/

def isBackendCallEv : Event → Bool
  | Event.backendCall .. => true
  | _ => false

def isCacheGetEv : Event → Bool
  | Event.cacheGet _ => true
  | _ => false

def isCacheSetEv : Event → Bool
  | Event.cacheSet .. => true
  | _ => false

def isAttrCallEv : Event → Bool
  | Event.attrListCall .. => true
  | _ => false

def isRespondEv : Event → Bool
  | Event.respond _ => true
  | Event.respondRaw _ => true
  | Event.respondCached _ => true
  | _ => false

def isLogErrorEv : Event → Bool
  | Event.logError _ => true
  | _ => false

def isCrashEv : Event → Bool
  | Event.crash _ => true
  | _ => false

def isProcessCallEv : Event → Bool
  | Event.processCall .. => true
  | _ => false

/-- Whether every cache write in the trace happens after the attribute
enrichment call, vacuously true when either is absent. -/
def cacheWritesAfterEnrichment (tr : List Event) : Bool :=
  match tr.findIdx? isCacheSetEv, tr.findIdx? isAttrCallEv with
  | some i, some j => decide (j < i)
  | _, _ => true

/-- The tags passed to the first cache write of the trace, if any. -/
def firstCacheSetTags (tr : List Event) : Option (List String) :=
  tr.findSome? fun ev =>
    match ev with
    | Event.cacheSet _ tags => some tags
    | _ => none

/-! ## Concrete sample inputs -/

/-- A hit carrying a common identifier. -/
def hitId (s : String) : Hit := { source := { id := some s, rest := "" }, score := none }

/-- A hit without an identifier. -/
def hitNoId : Hit := { source := { id := none, rest := "" }, score := none }

/-- A sample raw hits wrapper. -/
def hitsObjSample : HitsObj := { total := 1, max_score := some 2, hits := some [hitId "7"] }

/-- A sample raw backend response with hits and aggregations. -/
def rbSample : ResBody :=
  { took := some 5, timed_out := some false, shards := some "sh",
    hits := some (HitsField.obj hitsObjSample), total := none,
    aggregations := some [("agg_terms_color", ["red"])],
    attribute_metadata := none }

/-- A baseline environment: cache instance present, cache miss, backend
returning `rbSample`, no entity-specific adapter, processor rewriting the hit
list to a single item with id 9, attribute service succeeding. -/
def envBase : Env :=
  { cacheAvailable := true, translate := fun b => b,
    jwtDecodeGroupId := Except.ok none, cacheGetResult := CacheGetResult.miss,
    backendResponse := some rbSample, processorHasAdapter := false,
    processorResult := Except.ok [hitId "9"], attributeList := Except.ok [],
    transformToMetadata := fun s => s }

/-- Configuration with output caching enabled. -/
def cfgOn : Config :=
  { indices := ["myindex"], useOutputCache := true, esUser := "", esPassword := "" }

/-- Configuration with output caching disabled. -/
def cfgOff : Config := { cfgOn with useOutputCache := false }

/-- A well-formed GET product request. -/
def reqA : Req :=
  { method := "GET", url := "/myindex/product/_search", query_request := none,
    request_format := none, response_format := none, body := emptyBody }

/-! ## C7: tag computation -/

/-- C7: with output caching enabled, entity type `product` and items with ids
7 and 9 plus one item without an identifier, the computed tags are exactly
`product`, `P7` and `P9` (the bare entity type, plus the uppercased first
letter of the entity type in front of each present identifier; the item
without an identifier contributes nothing); with caching disabled the tag
list stays empty. -/
theorem c7_tag_computation :
    computeTags true "product" [hitId "7", hitId "9", hitNoId] =
      some ["product", "P7", "P9"] ∧
    computeTags false "product" [hitId "7", hitId "9", hitNoId] = some [] := by
  decide

/-! ## C10: tag computation is not total over validated requests -/

/-- A validated request whose entity-type path segment is empty. -/
def req10 : Req := { reqA with url := "/myindex//_search" }

/-- The run of the handler on `req10` with output caching enabled passes all
validation checks, reaches the tag-computation branch and crashes there
without ever responding. -/
def emptyEntityCrashCheck : Bool :=
  match catalog cfgOn envBase req10 with
  | Except.ok tr => tr.any isCrashEv && !(tr.any isRespondEv)
  | Except.error _ => false

/-- C10: the tag computation reads the first character of the entity type, so
for an empty entity type it applies the uppercase operation to an undefined
value and throws, for every hit list; the URL `/myindex//_search` passes all
validation checks (the handler does not reject it) and its trace ends in that
crash with no response ever sent. -/
theorem c10_empty_entity_type_crash :
    (∀ items, computeTags true "" items = none) ∧ emptyEntityCrashCheck = true :=
  ⟨fun _ => rfl, by decide⟩

/-! ## C8: the aggregation-to-attribute-code merge -/

lemma mem_foldl_dedupStep (x : String) (l acc : List String) :
    x ∈ l.foldl dedupStep acc ↔ x ∈ acc ∨ x ∈ l := by
  induction l generalizing acc with
  | nil => simp
  | cons a t ih =>
    rw [List.foldl_cons, ih]
    unfold dedupStep
    by_cases ha : a ∈ acc
    · rw [if_pos ha]
      constructor
      · rintro (h | h)
        · exact Or.inl h
        · exact Or.inr (List.mem_cons_of_mem _ h)
      · rintro (h | h)
        · exact Or.inl h
        · rcases List.mem_cons.mp h with rfl | h
          · exact Or.inl ha
          · exact Or.inr h
    · rw [if_neg ha]
      simp [List.mem_append, List.mem_cons, or_assoc]

lemma mem_jsDedup (x : String) (l : List String) : x ∈ jsDedup l ↔ x ∈ l := by
  unfold jsDedup
  rw [mem_foldl_dedupStep]
  simp

lemma assocLookup_updateAssoc_self (acc : List (String × List String))
    (code : String) (f : List String → List String) :
    assocLookup (updateAssoc acc code f) code =
      some (f ((assocLookup acc code).getD [])) := by
  induction acc with
  | nil => simp [updateAssoc, assocLookup]
  | cons kv rest ih =>
    obtain ⟨k, v⟩ := kv
    unfold updateAssoc
    by_cases hk : k = code
    · subst hk
      simp [assocLookup]
    · rw [if_neg hk]
      simp [assocLookup, hk, ih]

lemma assocLookup_updateAssoc_ne (acc : List (String × List String))
    (code c : String) (f : List String → List String) (h : c ≠ code) :
    assocLookup (updateAssoc acc code f) c = assocLookup acc c := by
  induction acc with
  | nil => simp [updateAssoc, assocLookup, Ne.symm h]
  | cons kv rest ih =>
    obtain ⟨k, v⟩ := kv
    unfold updateAssoc
    by_cases hk : k = code
    · subst hk
      simp [assocLookup, Ne.symm h]
    · rw [if_neg hk]
      by_cases hkc : k = c <;> simp [assocLookup, hkc, ih]

lemma mem_foldl_aggStep (x code : String) (l : List (String × List String))
    (acc : List (String × List String)) :
    x ∈ (assocLookup (l.foldl aggStep acc) code).getD [] ↔
      x ∈ (assocLookup acc code).getD [] ∨
        ∃ kv, kv ∈ l ∧ stripAggKey kv.1 = code ∧ x ∈ kv.2 := by
  induction l generalizing acc with
  | nil => simp
  | cons kv t ih =>
    rw [List.foldl_cons, ih]
    have hstep : x ∈ (assocLookup (aggStep acc kv) code).getD [] ↔
        x ∈ (assocLookup acc code).getD [] ∨ (stripAggKey kv.1 = code ∧ x ∈ kv.2) := by
      unfold aggStep
      by_cases hc : stripAggKey kv.1 = code
      · rw [hc, assocLookup_updateAssoc_self]
        simp [mem_jsDedup, List.mem_append, hc]
      · rw [assocLookup_updateAssoc_ne _ _ _ _ (fun hh => hc hh.symm)]
        simp [hc]
    rw [hstep]
    constructor
    · rintro ((h | h) | ⟨p, hp, hsp, hxp⟩)
      · exact Or.inl h
      · exact Or.inr ⟨kv, List.mem_cons_self _ _, h.1, h.2⟩
      · exact Or.inr ⟨p, List.mem_cons_of_mem _ hp, hsp, hxp⟩
    · rintro (h | ⟨p, hp, hsp, hxp⟩)
      · exact Or.inl (Or.inl h)
      · rcases List.mem_cons.mp hp with rfl | hp
        · exact Or.inl (Or.inr ⟨hsp, hxp⟩)
        · exact Or.inr ⟨p, hp, hsp, hxp⟩

lemma isSome_foldl_aggStep (code : String) (l : List (String × List String))
    (acc : List (String × List String)) :
    (assocLookup (l.foldl aggStep acc) code).isSome = true ↔
      (assocLookup acc code).isSome = true ∨
        ∃ kv, kv ∈ l ∧ stripAggKey kv.1 = code := by
  induction l generalizing acc with
  | nil => simp
  | cons kv t ih =>
    rw [List.foldl_cons, ih]
    have hstep : (assocLookup (aggStep acc kv) code).isSome = true ↔
        (assocLookup acc code).isSome = true ∨ stripAggKey kv.1 = code := by
      unfold aggStep
      by_cases hc : stripAggKey kv.1 = code
      · rw [hc, assocLookup_updateAssoc_self]
        simp [hc]
      · rw [assocLookup_updateAssoc_ne _ _ _ _ (fun hh => hc hh.symm)]
        simp [hc]
    rw [hstep]
    constructor
    · rintro ((h | h) | ⟨p, hp, hsp⟩)
      · exact Or.inl h
      · exact Or.inr ⟨kv, List.mem_cons_self _ _, h⟩
      · exact Or.inr ⟨p, List.mem_cons_of_mem _ hp, hsp⟩
    · rintro (h | ⟨p, hp, hsp⟩)
      · exact Or.inl (Or.inl h)
      · rcases List.mem_cons.mp hp with rfl | hp
        · exact Or.inl (Or.inr hsp)
        · exact Or.inr ⟨p, hp, hsp⟩

/-- C8: the attribute-list parameter built from the aggregations maps every
attribute code (the aggregation name with its `agg_terms_`/`agg_range_` head
and `_options` tail stripped) to the union, with duplicates removed, of the
bucket keys of all aggregation names mapping to that code; a code is present
exactly when some non-empty-bucket aggregation maps to it (empty bucket lists
are filtered out first); in particular, `agg_terms_color` with keys red and
blue merged with `agg_terms_color_options` with keys blue and green yields the
code `color` with options red, blue, green. -/
theorem c8_enrichment_merge :
    (∀ aggs code x,
      x ∈ (assocLookup (attributeListParam aggs) code).getD [] ↔
        ∃ kv, kv ∈ aggs ∧ stripAggKey kv.1 = code ∧ x ∈ kv.2) ∧
    (∀ aggs code,
      (assocLookup (attributeListParam aggs) code).isSome = true ↔
        ∃ kv, kv ∈ aggs ∧ stripAggKey kv.1 = code ∧ kv.2 ≠ []) ∧
    attributeListParam
        [("agg_terms_color", ["red", "blue"]), ("agg_terms_color_options", ["blue", "green"])] =
      [("color", ["red", "blue", "green"])] ∧
    attributeListParam [("agg_terms_size", [])] = [] := by
  refine ⟨?_, ?_, by decide, by decide⟩
  · intro aggs code x
    unfold attributeListParam
    rw [mem_foldl_aggStep]
    simp only [assocLookup, Option.getD_none, List.not_mem_nil, false_or]
    constructor
    · rintro ⟨kv, hkv, hsp, hx⟩
      exact ⟨kv, (List.mem_filter.mp hkv).1, hsp, hx⟩
    · rintro ⟨kv, hkv, hsp, hx⟩
      refine ⟨kv, List.mem_filter.mpr ⟨hkv, ?_⟩, hsp, hx⟩
      cases hk2 : kv.2 with
      | nil => rw [hk2] at hx; cases hx
      | cons b bs => simp [hk2]
  · intro aggs code
    unfold attributeListParam
    rw [isSome_foldl_aggStep]
    simp only [assocLookup, Option.isSome_none, Bool.false_eq_true, false_or]
    constructor
    · rintro ⟨kv, hkv, hsp⟩
      obtain ⟨hmem, hne⟩ := List.mem_filter.mp hkv
      refine ⟨kv, hmem, hsp, ?_⟩
      cases hk2 : kv.2 with
      | nil => rw [hk2] at hne; simp at hne
      | cons b bs => simp [hk2]
    · rintro ⟨kv, hkv, hsp, hne⟩
      refine ⟨kv, List.mem_filter.mpr ⟨hkv, ?_⟩, hsp⟩
      cases hk2 : kv.2 with
      | nil => exact absurd hk2 hne
      | cons b bs => simp [hk2]

/-! ## C9: output formatting -/

/-- C9: the `standard` format passes the response body through unchanged; the
`compact` format yields a body with no `took`, `timed_out`, `_shards` or
`max_score` field, whose `total` equals the pre-compaction `hits.total`, and
whose `hits` property becomes the list of source objects each augmented with
its relevance score. -/
theorem c9_output_formatter (b : ResBody) (o : HitsObj) (hs : List Hit)
    (hb : b.hits = some (HitsField.obj o)) (hh : o.hits = some hs) :
    _outputFormatter b "standard" = some b ∧
    ∃ c, _outputFormatter b "compact" = some c ∧
      c.took = none ∧ c.timed_out = none ∧ c.shards = none ∧
      bodyHasMaxScore c = false ∧ c.total = some o.total ∧
      c.hits = some (HitsField.flat (hs.map flattenHit)) := by
  constructor
  · simp [_outputFormatter]
  · have hc : _outputFormatter b "compact" =
        some { b with
               took := none, timed_out := none, shards := none,
               total := some o.total,
               hits := some (HitsField.flat (hs.map flattenHit)) } := by
      simp [_outputFormatter, hb, hh]
    exact ⟨_, hc, rfl, rfl, rfl, rfl, rfl, rfl⟩

/-- Witness for C9 at a concrete response body with hits present. -/
theorem c9_output_formatter_witness :
    rbSample.hits = some (HitsField.obj hitsObjSample) ∧
    hitsObjSample.hits = some [hitId "7"] ∧
    (_outputFormatter rbSample "standard" = some rbSample ∧
      ∃ c, _outputFormatter rbSample "compact" = some c ∧
        c.took = none ∧ c.timed_out = none ∧ c.shards = none ∧
        bodyHasMaxScore c = false ∧ c.total = some hitsObjSample.total ∧
        c.hits = some (HitsField.flat ([hitId "7"].map flattenHit))) :=
  ⟨rfl, rfl, c9_output_formatter rbSample hitsObjSample [hitId "7"] rfl rfl⟩

/-! ## C5: the group fields never reach fingerprint, cache key or backend -/

lemma strip_eq_of_rest_eq (b1 b2 : Body) (h : b1.rest = b2.rest) :
    ({ b1 with groupToken := none, groupId := none } : Body) =
    { b2 with groupToken := none, groupId := none } := by
  cases b1
  cases b2
  simp_all

/-- C5: two requests to the same URL whose (untranslated) bodies agree outside
the `groupToken` and `groupId` fields yield the same stripped body — hence the
same backend request body — the same fingerprint and the same cache key. -/
theorem c5_group_fields_stripped (env : Env) (r1 r2 : Req)
    (hurl : r1.url = r2.url)
    (hf1 : r1.request_format ≠ some "search-query")
    (hf2 : r2.request_format ≠ some "search-query")
    (hrest : (requestBodyRaw r1).rest = (requestBodyRaw r2).rest) :
    strippedBodyOf env r1 = strippedBodyOf env r2 ∧
    reqHashOf env r1 = reqHashOf env r2 ∧
    "api:" ++ reqHashOf env r1 = "api:" ++ reqHashOf env r2 := by
  have hb : strippedBodyOf env r1 = strippedBodyOf env r2 := by
    unfold strippedBodyOf requestBodyOf
    rw [if_neg hf1, if_neg hf2]
    exact strip_eq_of_rest_eq _ _ hrest
  have hhash : reqHashOf env r1 = reqHashOf env r2 := by
    unfold reqHashOf
    rw [hb, hurl]
  exact ⟨hb, hhash, by rw [hhash]⟩

/-- Two requests identical except for the group token and group id carried in
the body. -/
def reqC5a : Req :=
  { reqA with body := { groupToken := some "token-number-one", groupId := none, rest := "q" } }

def reqC5b : Req :=
  { reqA with body := { groupToken := some "token-number-two", groupId := some "42", rest := "q" } }

/-- Witness for C5 at two concrete requests differing only in group fields. -/
theorem c5_group_fields_stripped_witness :
    reqC5a.url = reqC5b.url ∧
    reqC5a.request_format ≠ some "search-query" ∧
    reqC5b.request_format ≠ some "search-query" ∧
    (requestBodyRaw reqC5a).rest = (requestBodyRaw reqC5b).rest ∧
    (strippedBodyOf envBase reqC5a = strippedBodyOf envBase reqC5b ∧
      reqHashOf envBase reqC5a = reqHashOf envBase reqC5b ∧
      "api:" ++ reqHashOf envBase reqC5a = "api:" ++ reqHashOf envBase reqC5b) :=
  ⟨rfl, by decide, by decide, rfl,
    c5_group_fields_stripped envBase reqC5a reqC5b rfl (by decide) (by decide) rfl⟩

/-! ## C6: a GET request without a request parameter proceeds on the empty body -/

lemma catalog_cacheOff_run (cfg : Config) (env : Env) (req : Req) (groupId : Option String)
    (hm : req.method = "GET")
    (hlen : 2 ≤ (jsSplitSlash req.url).length)
    (hidx : cfg.indices.contains ((jsSplitSlash req.url).getD 1 "") = true)
    (hsearch : strStartsWith ((jsSplitSlash req.url).getLastD "") "_search" = true)
    (hcache : cfg.useOutputCache = false)
    (hgroup : groupIdStep env (requestBodyOf env req) = Except.ok groupId) :
    catalog cfg env req =
      Except.ok (dynamicRequestHandler env false
        ((jsSplitSlash req.url).getD 1 "")
        (if (jsSplitSlash req.url).length > 2 then (jsSplitSlash req.url).getD 2 "" else "")
        (adjustBackendProxyUrl req.url ((jsSplitSlash req.url).getD 1 "")
          (if (jsSplitSlash req.url).length > 2 then (jsSplitSlash req.url).getD 2 "" else ""))
        req.method (strippedBodyOf env req) (authOf cfg) groupId
        (reqHashOf env req) (responseFormatOf req)) := by
  have hnl : ¬ ((jsSplitSlash req.url).length < 2) := by omega
  have hidx2 : (jsSplitSlash req.url)[1]?.getD "" ∈ cfg.indices := by simpa using hidx
  have hsearch2 : strStartsWith ((jsSplitSlash req.url).getLast?.getD "") "_search" = true := by
    simpa using hsearch
  unfold catalog
  simp [hm, hnl, hidx2, hsearch2, hgroup, hcache]

/-- C6: a GET request whose `request` query parameter is absent proceeds on
the (empty) transport-level body: normalization yields the empty body, the
fingerprint is computed over the serialized empty body plus the URL, the run
does not error, and the backend is called with the empty body. -/
theorem c6_absent_request_param (cfg : Config) (env : Env) (req : Req)
    (hm : req.method = "GET") (hq : req.query_request = none)
    (hfmt : req.request_format = none) (hb : req.body = emptyBody)
    (hlen : 2 ≤ (jsSplitSlash req.url).length)
    (hidx : cfg.indices.contains ((jsSplitSlash req.url).getD 1 "") = true)
    (hsearch : strStartsWith ((jsSplitSlash req.url).getLastD "") "_search" = true)
    (hcache : cfg.useOutputCache = false) :
    requestBodyOf env req = emptyBody ∧
    strippedBodyOf env req = emptyBody ∧
    reqHashOf env req = sha3_224 (serializeBody emptyBody ++ req.url) ∧
    ∃ tr, catalog cfg env req = Except.ok tr ∧
      ∃ u, tr.head? = some (Event.backendCall u "GET" emptyBody (authOf cfg)) := by
  have hbody : requestBodyOf env req = emptyBody := by
    simp [requestBodyOf, requestBodyRaw, hfmt, hm, hq, hb]
  have hstrip : strippedBodyOf env req = emptyBody := by
    unfold strippedBodyOf
    rw [hbody]
    rfl
  have hgroup : groupIdStep env (requestBodyOf env req) = Except.ok none := by
    rw [hbody]
    rfl
  have hrun := catalog_cacheOff_run cfg env req none hm hlen hidx hsearch hcache hgroup
  refine ⟨hbody, hstrip, ?_, _, hrun,
    adjustBackendProxyUrl req.url ((jsSplitSlash req.url).getD 1 "")
      (if (jsSplitSlash req.url).length > 2 then (jsSplitSlash req.url).getD 2 "" else ""), ?_⟩
  · unfold reqHashOf
    rw [hstrip]
  · unfold dynamicRequestHandler
    rw [hm, hstrip]
    rfl

/-- Witness for C6 at a concrete GET request without a request parameter. -/
theorem c6_absent_request_param_witness :
    reqA.method = "GET" ∧ reqA.query_request = none ∧ reqA.request_format = none ∧
    reqA.body = emptyBody ∧ 2 ≤ (jsSplitSlash reqA.url).length ∧
    cfgOff.indices.contains ((jsSplitSlash reqA.url).getD 1 "") = true ∧
    strStartsWith ((jsSplitSlash reqA.url).getLastD "") "_search" = true ∧
    cfgOff.useOutputCache = false ∧
    (requestBodyOf envBase reqA = emptyBody ∧
      strippedBodyOf envBase reqA = emptyBody ∧
      reqHashOf envBase reqA = sha3_224 (serializeBody emptyBody ++ reqA.url) ∧
      ∃ tr, catalog cfgOff envBase reqA = Except.ok tr ∧
        ∃ u, tr.head? = some (Event.backendCall u "GET" emptyBody (authOf cfgOff))) :=
  ⟨rfl, rfl, rfl, rfl, by decide, by decide, by decide, rfl,
    c6_absent_request_param cfgOff envBase reqA rfl rfl rfl rfl
      (by decide) (by decide) (by decide) rfl⟩

/-! ## C1: ordering of processor, cache write, enrichment and response -/

lemma outputFormatter_obj_isSome (rb : ResBody) (o : HitsObj) (hs : List Hit) (fmt : String)
    (hh : rb.hits = some (HitsField.obj o)) (ho : o.hits = some hs) :
    ∃ out, _outputFormatter rb fmt = some out := by
  unfold _outputFormatter
  by_cases hfmt : fmt = "compact"
  · rw [if_pos hfmt]
    simp [hh, ho]
  · rw [if_neg hfmt]
    exact ⟨rb, rfl⟩

lemma respondFormatted_obj (rb : ResBody) (o : HitsObj) (hs : List Hit) (fmt : String)
    (hh : rb.hits = some (HitsField.obj o)) (ho : o.hits = some hs) :
    ∃ out, respondFormatted rb fmt = [Event.respond out] := by
  obtain ⟨out, hout⟩ := outputFormatter_obj_isSome rb o hs fmt hh ho
  refine ⟨out, ?_⟩
  unfold respondFormatted
  rw [hout]

/-- C1 (amended): on the backend-call path of a product request with hits,
caching enabled and aggregations present, the pipeline order is: backend call,
processor dispatch, then the cache write, then attribute enrichment, then the
response — the cache write happens after the processor but BEFORE enrichment —
and the tags passed to the cache write are computed from the raw
pre-processing hits (the hypothesis binds them to `rawHits`), not from the
processed items. -/
theorem c1_pipeline_order (env : Env)
    (indexName entityType elasticBackendUrl method : String) (requestBody : Body)
    (auth : Option (String × String)) (groupId : Option String)
    (reqHash responseFormat : String) (rb : ResBody) (o : HitsObj)
    (rawHits processed : List Hit) (aggs : List (String × List String))
    (tags : List String) (lst : List String)
    (hrb : env.backendResponse = some rb)
    (hh : rb.hits = some (HitsField.obj o))
    (hhits : o.hits = some rawHits)
    (hent : entityType = "product")
    (htags : computeTags true entityType rawHits = some tags)
    (hproc : env.processorResult = Except.ok processed)
    (haggs : rb.aggregations = some aggs)
    (hattr : env.attributeList = Except.ok lst) :
    ∃ out,
      dynamicRequestHandler env true indexName entityType elasticBackendUrl method
          requestBody auth groupId reqHash responseFormat =
        [Event.backendCall elasticBackendUrl method requestBody auth,
         Event.processCall (if env.processorHasAdapter then entityType else "default")
           rawHits groupId,
         Event.cacheSet ("api:" ++ reqHash) tags,
         Event.attrListCall (attributeListParam aggs) indexName,
         Event.respond out] := by
  subst hent
  obtain ⟨out, hout⟩ := respondFormatted_obj
    { rb with hits := some (HitsField.obj { o with hits := some processed }),
              attribute_metadata := some (lst.map env.transformToMetadata) }
    { o with hits := some processed } processed responseFormat (by simp) rfl
  refine ⟨out, ?_⟩
  unfold dynamicRequestHandler
  simp only [hrb, hh, hhits, htags, hproc, haggs, hattr]
  rw [haggs] at hout
  simp [_cacheStorageHandler, hout]

/-- Witness for the amended C1 at a concrete environment. -/
theorem c1_pipeline_order_witness :
    envBase.backendResponse = some rbSample ∧
    rbSample.hits = some (HitsField.obj hitsObjSample) ∧
    hitsObjSample.hits = some [hitId "7"] ∧
    computeTags true "product" [hitId "7"] = some ["product", "P7"] ∧
    envBase.processorResult = Except.ok [hitId "9"] ∧
    rbSample.aggregations = some [("agg_terms_color", ["red"])] ∧
    envBase.attributeList = Except.ok [] ∧
    (∃ out,
      dynamicRequestHandler envBase true "myindex" "product" "u" "GET" emptyBody none
          none "h" "standard" =
        [Event.backendCall "u" "GET" emptyBody none,
         Event.processCall (if envBase.processorHasAdapter then "product" else "default")
           [hitId "7"] none,
         Event.cacheSet ("api:" ++ "h") ["product", "P7"],
         Event.attrListCall (attributeListParam [("agg_terms_color", ["red"])]) "myindex",
         Event.respond out]) :=
  ⟨rfl, rfl, rfl, by decide, rfl, rfl, rfl,
    c1_pipeline_order envBase "myindex" "product" "u" "GET" emptyBody none none "h" "standard"
      rbSample hitsObjSample [hitId "7"] [hitId "9"] [("agg_terms_color", ["red"])]
      ["product", "P7"] [] rfl rfl rfl rfl (by decide) rfl rfl rfl⟩

/-- Counterexample to C1 as stated: at a concrete product request the cache
write does NOT come after enrichment (it precedes the attribute-service call),
and the tags it passes are those of the raw hit with id 7, not the tags of the
processed items (whose id is 9). -/
theorem c1_counterexample :
    cacheWritesAfterEnrichment
      (dynamicRequestHandler envBase true "myindex" "product" "u" "GET" emptyBody none
        none "h" "standard") = false ∧
    firstCacheSetTags
      (dynamicRequestHandler envBase true "myindex" "product" "u" "GET" emptyBody none
        none "h" "standard") = some ["product", "P7"] ∧
    computeTags true "product" [hitId "9"] = some ["product", "P9"] := by
  decide

/-! ## C3: a failing attribute lookup is logged, not propagated -/

/-- C3 (amended): on the product path with hits and aggregations, when the
attribute service fails the rejection is caught by the promise catch handler:
the trace ends with the logged error and contains no response of any kind (the
request is left unanswered; no error reaches the caller). -/
theorem c3_enrichment_failure_logged (env : Env) (cacheOn : Bool)
    (indexName entityType elasticBackendUrl method : String) (requestBody : Body)
    (auth : Option (String × String)) (groupId : Option String)
    (reqHash responseFormat : String) (rb : ResBody) (o : HitsObj)
    (rawHits processed : List Hit) (aggs : List (String × List String))
    (tags : List String) (e : String)
    (hrb : env.backendResponse = some rb)
    (hh : rb.hits = some (HitsField.obj o))
    (hhits : o.hits = some rawHits)
    (hent : entityType = "product")
    (htags : computeTags cacheOn entityType rawHits = some tags)
    (hproc : env.processorResult = Except.ok processed)
    (haggs : rb.aggregations = some aggs)
    (hattr : env.attributeList = Except.error e) :
    dynamicRequestHandler env cacheOn indexName entityType elasticBackendUrl method
        requestBody auth groupId reqHash responseFormat =
      Event.backendCall elasticBackendUrl method requestBody auth ::
        Event.processCall (if env.processorHasAdapter then entityType else "default")
          rawHits groupId ::
        (_cacheStorageHandler cacheOn reqHash tags ++
          [Event.attrListCall (attributeListParam aggs) indexName, Event.logError e]) ∧
    (dynamicRequestHandler env cacheOn indexName entityType elasticBackendUrl method
        requestBody auth groupId reqHash responseFormat).any isRespondEv = false := by
  subst hent
  have htrace :
      dynamicRequestHandler env cacheOn indexName "product" elasticBackendUrl method
          requestBody auth groupId reqHash responseFormat =
        Event.backendCall elasticBackendUrl method requestBody auth ::
          Event.processCall (if env.processorHasAdapter then "product" else "default")
            rawHits groupId ::
          (_cacheStorageHandler cacheOn reqHash tags ++
            [Event.attrListCall (attributeListParam aggs) indexName, Event.logError e]) := by
    unfold dynamicRequestHandler
    simp only [hrb, hh, hhits, htags, hproc, haggs, hattr]
    simp
  refine ⟨htrace, ?_⟩
  rw [htrace]
  cases cacheOn <;>
    simp [_cacheStorageHandler, isRespondEv, List.any_append, List.any_cons]

/-- An environment whose attribute service fails. -/
def envC3 : Env := { envBase with attributeList := Except.error "attribute lookup failed" }

/-- Witness for the amended C3 at a concrete environment. -/
theorem c3_enrichment_failure_logged_witness :
    envC3.backendResponse = some rbSample ∧
    rbSample.hits = some (HitsField.obj hitsObjSample) ∧
    hitsObjSample.hits = some [hitId "7"] ∧
    computeTags true "product" [hitId "7"] = some ["product", "P7"] ∧
    envC3.processorResult = Except.ok [hitId "9"] ∧
    rbSample.aggregations = some [("agg_terms_color", ["red"])] ∧
    envC3.attributeList = Except.error "attribute lookup failed" ∧
    (dynamicRequestHandler envC3 true "myindex" "product" "u" "GET" emptyBody none
        none "h" "standard" =
      Event.backendCall "u" "GET" emptyBody none ::
        Event.processCall (if envC3.processorHasAdapter then "product" else "default")
          [hitId "7"] none ::
        (_cacheStorageHandler true "h" ["product", "P7"] ++
          [Event.attrListCall (attributeListParam [("agg_terms_color", ["red"])]) "myindex",
           Event.logError "attribute lookup failed"]) ∧
      (dynamicRequestHandler envC3 true "myindex" "product" "u" "GET" emptyBody none
        none "h" "standard").any isRespondEv = false) :=
  ⟨rfl, rfl, rfl, by decide, rfl, rfl, rfl,
    c3_enrichment_failure_logged envC3 true "myindex" "product" "u" "GET" emptyBody none
      none "h" "standard" rbSample hitsObjSample [hitId "7"] [hitId "9"]
      [("agg_terms_color", ["red"])] ["product", "P7"] "attribute lookup failed"
      rfl rfl rfl rfl (by decide) rfl rfl rfl⟩

/-- Whether, at the given run, an attribute-lookup failure surfaces to the
caller as the request's failure: either the handler throws, or some response
is sent.  This is what C3 asserts. -/
def enrichFailurePropagated (cfg : Config) (env : Env) (req : Req) : Bool :=
  match catalog cfg env req with
  | Except.error _ => true
  | Except.ok tr => tr.any isRespondEv

/-- Counterexample to C3 as stated: at a concrete product request whose
attribute lookup fails, no error and no response reach the caller — the run
succeeds with a trace that contains the attribute call and a logged error but
no response event. -/
theorem c3_counterexample :
    enrichFailurePropagated cfgOn envC3 reqA = false ∧
    (match catalog cfgOn envC3 reqA with
      | Except.ok tr => tr.any isAttrCallEv && tr.any isLogErrorEv
      | Except.error _ => false) = true := by
  decide

/-- Equality of handler outcomes is decidable, so concrete runs can be
checked by evaluation. -/
instance {α β : Type} [DecidableEq α] [DecidableEq β] : DecidableEq (Except α β) :=
  fun x y =>
    match x, y with
    | Except.error a, Except.error b =>
      if h : a = b then isTrue (by rw [h]) else isFalse (by simp [h])
    | Except.ok a, Except.ok b =>
      if h : a = b then isTrue (by rw [h]) else isFalse (by simp [h])
    | Except.error _, Except.ok _ => isFalse (by simp)
    | Except.ok _, Except.error _ => isFalse (by simp)

/-! ## C2: a failed cache read drops the request -/

/-- C2 (amended): with output caching enabled, when the cache read fails the
promise catch handler only logs the error: the run succeeds with a trace
consisting of exactly the cache read and the logged error — the backend is
never called and no response is ever produced (the request is left
unanswered, not degraded to a miss). -/
theorem c2_cache_read_failure_drops_request (cfg : Config) (env : Env) (req : Req)
    (e : String) (tr : List Event)
    (hc : cfg.useOutputCache = true) (ha : env.cacheAvailable = true)
    (hf : env.cacheGetResult = CacheGetResult.failure e)
    (hok : catalog cfg env req = Except.ok tr) :
    tr = [Event.cacheGet ("api:" ++ reqHashOf env req), Event.logError e] ∧
    tr.any isBackendCallEv = false ∧ tr.any isRespondEv = false := by
  unfold catalog at hok
  rw [hc, ha, hf] at hok
  simp only [Bool.and_self, eq_self_iff_true, if_true] at hok
  repeat' split at hok
  all_goals simp at hok
  all_goals subst hok
  all_goals exact ⟨rfl, rfl, rfl⟩

/-- An environment whose cache read rejects. -/
def envC2 : Env :=
  { envBase with cacheGetResult := CacheGetResult.failure "cache store unavailable" }

/-- The trace of the failing-cache run at the concrete inputs below. -/
def trC2 : List Event :=
  [Event.cacheGet "api:;;/myindex/product/_search", Event.logError "cache store unavailable"]

/-- Witness for the amended C2 at a concrete run. -/
theorem c2_cache_read_failure_drops_request_witness :
    cfgOn.useOutputCache = true ∧ envC2.cacheAvailable = true ∧
    envC2.cacheGetResult = CacheGetResult.failure "cache store unavailable" ∧
    catalog cfgOn envC2 reqA = Except.ok trC2 ∧
    (trC2 = [Event.cacheGet ("api:" ++ reqHashOf envC2 reqA),
        Event.logError "cache store unavailable"] ∧
      trC2.any isBackendCallEv = false ∧ trC2.any isRespondEv = false) :=
  ⟨rfl, rfl, rfl, by decide,
    c2_cache_read_failure_drops_request cfgOn envC2 reqA "cache store unavailable" trC2
      rfl rfl rfl (by decide)⟩

/-- Whether, at the given run, a cache read failure is treated identically to
a miss: the backend gets called and a response is produced.  This is what C2
asserts. -/
def treatsCacheFailureAsMiss (cfg : Config) (env : Env) (req : Req) : Bool :=
  match catalog cfg env req with
  | Except.ok tr => tr.any isBackendCallEv && tr.any isRespondEv
  | Except.error _ => false

/-- Counterexample to C2 as stated: at a concrete cache-enabled request whose
cache read fails, the backend is not called and no response is produced,
whereas the identical request with a cache miss does call the backend and
respond. -/
theorem c2_counterexample :
    treatsCacheFailureAsMiss cfgOn envC2 reqA = false ∧
    treatsCacheFailureAsMiss cfgOn envBase reqA = true := by
  decide

/-! ## C4: cache-disabled request, validation and backend-call count -/

lemma dyn_cacheOff_counts (env : Env) (indexName entityType elasticBackendUrl method : String)
    (requestBody : Body) (auth : Option (String × String)) (groupId : Option String)
    (reqHash responseFormat : String) :
    (dynamicRequestHandler env false indexName entityType elasticBackendUrl method
        requestBody auth groupId reqHash responseFormat).countP isBackendCallEv = 1 ∧
    (dynamicRequestHandler env false indexName entityType elasticBackendUrl method
        requestBody auth groupId reqHash responseFormat).countP isCacheGetEv = 0 ∧
    (dynamicRequestHandler env false indexName entityType elasticBackendUrl method
        requestBody auth groupId reqHash responseFormat).countP isCacheSetEv = 0 := by
  unfold dynamicRequestHandler _cacheStorageHandler respondFormatted
  have hct : ∀ (et : String) (rh : List Hit), computeTags false et rh = some [] :=
    fun _ _ => rfl
  refine ⟨?_, ?_, ?_⟩ <;>
  · simp only [hct, List.countP_cons, List.countP_append, List.countP_nil]
    repeat' split
    all_goals
      simp_all [isBackendCallEv, isCacheGetEv, isCacheSetEv, List.countP_cons,
        List.countP_append]

/-- C4 (amended): a GET request to `/myindex/product/_search` (the URL form
the validator accepts: the LAST path segment must start with `_search`) with
`response_format=compact`, `myindex` in the allow-list, a valid long group
token and output caching disabled passes validation, never touches the cache
(no get and no set events) and calls the backend exactly once. -/
theorem c4_valid_url_cache_disabled (cfg : Config) (env : Env) (req : Req)
    (tok : String) (g : Option String)
    (hm : req.method = "GET")
    (hurl : req.url = "/myindex/product/_search?response_format=compact")
    (hidx : cfg.indices.contains "myindex" = true)
    (hcache : cfg.useOutputCache = false)
    (htok : (requestBodyOf env req).groupToken = some tok)
    (htlen : 10 < tok.length)
    (hjwt : env.jwtDecodeGroupId = Except.ok g) :
    ∃ tr, catalog cfg env req = Except.ok tr ∧
      tr.countP isBackendCallEv = 1 ∧
      tr.countP isCacheGetEv = 0 ∧
      tr.countP isCacheSetEv = 0 := by
  have hsplit : jsSplitSlash req.url =
      ["", "myindex", "product", "_search?response_format=compact"] := by
    rw [hurl]
    decide
  have hgroup : groupIdStep env (requestBodyOf env req) = Except.ok (jsTruthyOpt g) := by
    unfold groupIdStep
    simp only [htok]
    rw [if_pos htlen, hjwt]
  have hrun := catalog_cacheOff_run cfg env req (jsTruthyOpt g) hm
    (by rw [hsplit]; decide)
    (by rw [hsplit]; exact hidx)
    (by rw [hsplit]; decide)
    hcache hgroup
  obtain ⟨h1, h2, h3⟩ := dyn_cacheOff_counts env
    ((jsSplitSlash req.url).getD 1 "")
    (if (jsSplitSlash req.url).length > 2 then (jsSplitSlash req.url).getD 2 "" else "")
    (adjustBackendProxyUrl req.url ((jsSplitSlash req.url).getD 1 "")
      (if (jsSplitSlash req.url).length > 2 then (jsSplitSlash req.url).getD 2 "" else ""))
    req.method (strippedBodyOf env req) (authOf cfg) (jsTruthyOpt g)
    (reqHashOf env req) (responseFormatOf req)
  exact ⟨_, hrun, h1, h2, h3⟩

/-- A body carrying a group token longer than ten characters. -/
def bodyWithToken : Body := { groupToken := some "12345678901", groupId := none, rest := "" }

/-- The concrete request of the amended C4. -/
def req4good : Req :=
  { method := "GET", url := "/myindex/product/_search?response_format=compact",
    query_request := none, request_format := none, response_format := some "compact",
    body := bodyWithToken }

/-- Witness for the amended C4 at a concrete run. -/
theorem c4_valid_url_cache_disabled_witness :
    req4good.method = "GET" ∧
    req4good.url = "/myindex/product/_search?response_format=compact" ∧
    cfgOff.indices.contains "myindex" = true ∧
    cfgOff.useOutputCache = false ∧
    (requestBodyOf envBase req4good).groupToken = some "12345678901" ∧
    10 < "12345678901".length ∧
    envBase.jwtDecodeGroupId = Except.ok none ∧
    (∃ tr, catalog cfgOff envBase req4good = Except.ok tr ∧
      tr.countP isBackendCallEv = 1 ∧
      tr.countP isCacheGetEv = 0 ∧
      tr.countP isCacheSetEv = 0) :=
  ⟨rfl, rfl, by decide, rfl, rfl, by decide, rfl,
    c4_valid_url_cache_disabled cfgOff envBase req4good "12345678901" none
      rfl rfl (by decide) rfl rfl (by decide) rfl⟩

/-- The request of C4 as literally stated, with the URL
`/myindex/product_search?response_format=compact`. -/
def req4bad : Req := { req4good with url := "/myindex/product_search?response_format=compact" }

/-- Counterexample to C4 as stated: the URL `/myindex/product_search` does NOT
pass validation — the last path segment `product_search?...` does not start
with `_search`, so the handler throws the URL-format validation error and the
backend is never invoked. -/
theorem c4_counterexample :
    catalog cfgOff envBase req4bad =
      Except.error "Please do use following URL format: /api/catalog/<index_name>/_search" := by
  decide
